import Mathlib

/-!
Verification of the release script `release.py` of the py-o365 repository.

The script's string manipulation is embedded over `List Char`; its
filesystem and subprocess effects are embedded as a small state / event
trace model.  External build and upload tools are modelled as recorded
events (their success is assumed where a claim does not concern them).
-/

namespace Release

/-- Embedding of the semantics of Python `str.split(sep)` for a one-character
separator: splitting the empty string yields one empty field, and each
occurrence of the separator starts a new field. -/
def pySplit (sep : Char) : List Char → List (List Char)
  | [] => [[]]
  | c :: cs =>
    if c = sep then [] :: pySplit sep cs
    else
      match pySplit sep cs with
      | [] => [[c]]
      | p :: ps => (c :: p) :: ps

/-- Embedding of Python `sep.join(parts)` for a one-character separator. -/
def pyJoin (sep : Char) : List (List Char) → List Char
  | [] => []
  | [x] => x
  | x :: xs => x ++ sep :: pyJoin sep xs

/-- Accumulator loop of decimal parsing: consumes ASCII digits, failing on
any non-digit character. -/
def parseDigitsAux : Nat → List Char → Option Nat
  | acc, [] => some acc
  | acc, c :: cs =>
    if c.isDigit then parseDigitsAux (10 * acc + (c.toNat - 48)) cs else none

/-- Parse a non-empty all-digit string as a natural number. -/
def parseDigits (s : List Char) : Option Nat :=
  if s.isEmpty then none else parseDigitsAux 0 s

/-- Strip leading and trailing ASCII spaces, as Python `int` does before
parsing. -/
def stripSpaces (s : List Char) : List Char :=
  ((s.dropWhile (fun c => c = ' ')).reverse.dropWhile (fun c => c = ' ')).reverse

/-- Sign handling of Python `int`: an optional single leading sign followed
by a non-empty run of digits. -/
def pyIntCore : List Char → Option Int
  | [] => none
  | c :: cs =>
    if c = '-' then (parseDigits cs).map (fun n => -(n : Int))
    else if c = '+' then (parseDigits cs).map (fun n => Int.ofNat n)
    else (parseDigits (c :: cs)).map (fun n => Int.ofNat n)

/-- Embedding of Python `int(s)` on a string: strip surrounding spaces, then
an optional sign and ASCII decimal digits; `none` models the `ValueError`
raised on any other input. -/
def pyInt? (s : List Char) : Option Int :=
  pyIntCore (stripSpaces s)

/-- Fuel-indexed decimal rendering loop; the fuel only bounds recursion depth
and is irrelevant once it exceeds the argument. -/
def natToStringAux : Nat → Nat → List Char
  | 0, _ => []
  | fuel + 1, n =>
    if n < 10 then [Nat.digitChar n]
    else natToStringAux fuel (n / 10) ++ [Nat.digitChar (n % 10)]

/-- Decimal rendering of a natural number, as Python `str` produces it
(canonical, no leading zeros). -/
def natToString (n : Nat) : List Char := natToStringAux (n + 1) n

/-- Embedding of Python `str` on an integer. -/
def intToString (i : Int) : List Char :=
  if i < 0 then '-' :: natToString i.natAbs else natToString i.toNat

/-- Embedding of the list comprehension
`[int(part) for part in current_version.split('.')]`: every part must parse,
otherwise the `ValueError` propagates. -/
def parseParts : List (List Char) → Option (List Int)
  | [] => some []
  | p :: ps => (pyInt? p).bind (fun v => (parseParts ps).map (fun vs => v :: vs))

/-- The sentinel version string `auto` that requests auto-increment. -/
def autoSentinel : List Char := ['a', 'u', 't', 'o']

/-- Embedding of `build_version_file(provided_version)`.  The version file is
represented by the version string it stores under the `version` key.  On the
`auto` sentinel the stored version is split on dots, each component parsed as
an integer (a failure raises, modelled as `Except.error`), the last component
incremented, and the parts re-rendered and joined; otherwise the provided
string is written unchanged.  The result is the string written to the file. -/
def buildVersionFile (provided stored : List Char) : Except Unit (List Char) :=
  if provided = autoSentinel then
    match parseParts (pySplit '.' stored) with
    | none => Except.error ()
    | some parts =>
      match parts.getLast? with
      | none => Except.error ()
      | some last =>
        Except.ok (pyJoin '.' ((parts.dropLast ++ [last + 1]).map intToString))
  else Except.ok provided

/-- Contents of the version file after `build_version_file` runs: the written
string on success; on a raised error the file is untouched, because in the
source the parse happens before the file is reopened for writing. -/
def versionFileAfter (provided stored : List Char) : List Char :=
  match buildVersionFile provided stored with
  | Except.ok v => v
  | Except.error _ => stored

/-- A dotted three-component version string `X.Y.Z` built from natural
components in canonical decimal form. -/
def verStr (x y z : Nat) : List Char :=
  natToString x ++ '.' :: (natToString y ++ '.' :: natToString z)

example : pySplit '.' ['1', '.', '2', '3'] = [['1'], ['2', '3']] := by decide
example : pyInt? ['1', '2'] = some 12 := by decide
example : pyInt? ['-', '3'] = some (-3) := by decide
example : pyInt? ['a'] = none := by decide
example : pyInt? [] = none := by decide
example : natToString 120 = ['1', '2', '0'] := by decide
example : buildVersionFile autoSentinel ['1', '.', '2', '.', '9']
    = Except.ok ['1', '.', '2', '.', '1', '0'] := rfl
example : buildVersionFile autoSentinel ['1', '.', 'a'] = Except.error () := rfl
example : verStr 1 22 3 = ['1', '.', '2', '2', '.', '3'] := by decide

/-!  State and event-trace model of the `build` and `upload` commands. -/

/-- Filesystem state seen by the script: the `dist` directory (absent, or
present with a list of entry names), the transient `dist_delete` directory,
and the version string stored in `version.json`. -/
structure FS where
  dist : Option (List String)
  distDelete : Option (List String)
  versionFile : List Char
deriving DecidableEq, Repr

/-- Observable effects of a command run, in order of occurrence. -/
inductive Event where
  | renameDir (src dst : String)
  | rmtree (path : String)
  | mkdir (path : String)
  | confirmAsk (msg : String)
  | echo (msg : String)
  | printMsg (msg : String)
  | checkCall (args : List String)
  | popenWait (args : List String)
deriving DecidableEq, Repr

/-- How a command run ends: a normal return, `sys.exit(code)`, or a
propagated exception. -/
inductive Outcome where
  | ok
  | exited (code : Nat)
  | raised
deriving DecidableEq, Repr

/-- The interactive prompt text of `click.confirm`, with `dist` formatted
in. -/
def confirmMsg : String := "dist is not empty - delete contents?"

/-- Directory-preparation prologue of `build`: when `dist` exists and is
non-empty, either clear it (rename to `dist_delete`, recursively delete,
recreate) when forced or confirmed, or echo `Aborting` and `sys.exit(1)`.
Returns the resulting filesystem, the events, and `some code` when
`sys.exit(code)` was called.  The confirmation prompt is only shown when
`force` is false, matching the short-circuit `force or click.confirm(...)`. -/
def prepareDist (force confirm : Bool) (fs : FS) : FS × List Event × Option Nat :=
  match fs.dist with
  | none => (fs, [], none)
  | some files =>
    if files.isEmpty then (fs, [], none)
    else
      if force then
        (FS.mk (some []) none fs.versionFile,
         [Event.renameDir "dist" "dist_delete", Event.rmtree "dist_delete",
          Event.mkdir "dist"], none)
      else if confirm then
        (FS.mk (some []) none fs.versionFile,
         [Event.confirmAsk confirmMsg, Event.renameDir "dist" "dist_delete",
          Event.rmtree "dist_delete", Event.mkdir "dist"], none)
      else
        (fs, [Event.confirmAsk confirmMsg, Event.echo "Aborting"], some 1)

/-- Arguments of the first external build-tool call. -/
def buildToolArgs1 : List String := ["python", "setup.py", "bdist_wheel"]

/-- Arguments of the second external build-tool call. -/
def buildToolArgs2 : List String := ["python", "setup.py", "sdist", "--formats=gztar"]

/-- Embedding of the `build` command: prepare the `dist` directory, then (if
the version option is non-empty, as `if version:` tests) resolve and write
the version file, then invoke the two external build tools.  `confirm` is
the answer the operator would give should the interactive prompt be reached.  The two
`subprocess.check_call` invocations are recorded as events and assumed to
succeed. -/
def build (force : Bool) (version : List Char) (confirm : Bool) (fs : FS) :
    FS × List Event × Outcome :=
  match prepareDist force confirm fs with
  | (fs1, evs, some code) => (fs1, evs, Outcome.exited code)
  | (fs1, evs, none) =>
    if version.isEmpty then
      (fs1, evs ++ [Event.checkCall buildToolArgs1, Event.checkCall buildToolArgs2],
       Outcome.ok)
    else
      match buildVersionFile version fs1.versionFile with
      | Except.error _ => (fs1, evs, Outcome.raised)
      | Except.ok v =>
        (FS.mk fs1.dist fs1.distDelete v,
         evs ++ [Event.checkCall buildToolArgs1, Event.checkCall buildToolArgs2],
         Outcome.ok)

/-- Guidance message printed when no built artifacts are present. -/
def noDistMsg : String := "No distribution files found. Please run \x27build\x27 command first"

/-- Arguments passed to the upload tool: production index when `release` is
set, otherwise the explicit test-index repository URL. -/
def twineArgs (release : Bool) : List String :=
  if release then ["twine", "upload", "dist/*"]
  else ["twine", "upload", "--repository-url", "https://test.pypi.org/legacy/", "dist/*"]

/-- Embedding of the `upload` command.  With rebuild off, an absent or empty
`dist` prints the guidance message and returns; with rebuild on, `build` is
invoked with `force=True` first.  The upload subprocess is spawned and
waited for; `twineExit`, the exit status the subprocess terminates with,
is never consulted, matching the unused result of `p.wait()` in the source. -/
def upload (release rebuild : Bool) (version : List Char) (confirm : Bool)
    (twineExit : Int) (fs : FS) : FS × List Event × Outcome :=
  if rebuild = false then
    match fs.dist with
    | none => (fs, [Event.printMsg noDistMsg], Outcome.ok)
    | some files =>
      if files.isEmpty then (fs, [Event.printMsg noDistMsg], Outcome.ok)
      else (fs, [Event.popenWait (twineArgs release)], Outcome.ok)
  else
    match build true version confirm fs with
    | (fs1, evs, Outcome.ok) =>
      (fs1, evs ++ [Event.popenWait (twineArgs release)], Outcome.ok)
    | (fs1, evs, out) => (fs1, evs, out)

example :
    build false ['2'] false (FS.mk (some ["old.whl"]) none ['1']) =
      (FS.mk (some ["old.whl"]) none ['1'],
       [Event.confirmAsk confirmMsg, Event.echo "Aborting"], Outcome.exited 1) := rfl

example :
    build true [] false (FS.mk (some ["old.whl"]) none ['1']) =
      (FS.mk (some []) none ['1'],
       [Event.renameDir "dist" "dist_delete", Event.rmtree "dist_delete",
        Event.mkdir "dist", Event.checkCall buildToolArgs1,
        Event.checkCall buildToolArgs2], Outcome.ok) := rfl

example :
    upload true false autoSentinel false 7 (FS.mk none none ['1']) =
      (FS.mk none none ['1'], [Event.printMsg noDistMsg], Outcome.ok) := rfl

/-!  Model of the `list` command. -/

/-- One artifact descriptor of a release, as returned by the package index;
`none` fields model absent JSON keys, which `dict.get` turns into `None`. -/
structure Artifact where
  packagetype : Option String
  upload_time : Option String
deriving DecidableEq, Repr

/-- The package-index HTTP response: `ok` is the truthiness of the response
object (status below 400), and `releases` is the optional `releases` mapping,
an insertion-ordered association list from version to artifact list. -/
structure PypiResponse where
  ok : Bool
  releases : Option (List (String × List Artifact))
deriving DecidableEq, Repr

/-- Loop body over the artifacts of a version: append the `packagetype`
of the artifact to the format list and overwrite the published date with
the `upload_time` of the artifact. -/
def scanStep (acc : List (Option String) × Option String) (fmt : Artifact) :
    List (Option String) × Option String :=
  (acc.1 ++ [fmt.packagetype], fmt.upload_time)

/-- The `for fmt in release` loop: collected format labels and the final
`published_on_date` (initially `None`). -/
def scanRelease (release : List Artifact) : List (Option String) × Option String :=
  release.foldl scanStep ([], none)

/-- Embedding of the pipe join of the collected format labels; an element
that is `None` raises a `TypeError`, modelled as an error. -/
def joinPipe : List (Option String) → Except Unit String
  | [] => Except.ok ""
  | [some s] => Except.ok s
  | some s :: xs => (joinPipe xs).map (fun r => s ++ " | " ++ r)
  | none :: _ => Except.error ()

/-- Right-justify `s` in a field of `w` characters, as `\x7b:>w\x7d` does. -/
def padLeft (w : Nat) (s : String) : String :=
  String.mk (List.replicate (w - s.length) ' ') ++ s

/-- Left-justify `s` in a field of `w` characters, as `\x7b:<w\x7d` does. -/
def padRight (w : Nat) (s : String) : String :=
  s ++ String.mk (List.replicate (w - s.length) ' ')

/-- The `print` format of one listing line; a `None` published date makes
the width-specified format raise a `TypeError`, modelled as an error. -/
def pyFormatLine (version : String) (published : Option String) (fmts : String) :
    Except Unit String :=
  match published with
  | none => Except.error ()
  | some p => Except.ok (padRight 10 version ++ padLeft 15 p ++ padLeft 25 fmts)

/-- The line printed for one version of the releases mapping. -/
def versionLine (version : String) (release : List Artifact) : Except Unit String :=
  (joinPipe (scanRelease release).1).bind
    (fun fmts => pyFormatLine version (scanRelease release).2 fmts)

/-- The per-version loop of the `list` command, producing the printed lines
in mapping order. -/
def collectLines : List (String × List Artifact) → Except Unit (List String)
  | [] => Except.ok []
  | vr :: rest =>
    (versionLine vr.1 vr.2).bind
      (fun line => (collectLines rest).map (fun ls => line :: ls))

/-- Message printed when the HTTP response is unsuccessful. -/
def notFoundMsg : String := "Package \x22pyo365\x22 not found on Pypi.org"

/-- Message printed when the releases mapping is empty. -/
def noReleasesMsg : String := "No releases found for pyo365"

/-- Embedding of the `list` command: on a falsy response print the
not-found message without touching the body; otherwise read `releases`
(defaulting to an empty mapping, as the `get` with default does in the source)
and print either the no-releases message or one line per version.  The
result is the list of printed lines. -/
def list_releases (resp : PypiResponse) : Except Unit (List String) :=
  if resp.ok then
    match (resp.releases.getD []).isEmpty with
    | true => Except.ok [noReleasesMsg]
    | false => collectLines (resp.releases.getD [])
  else Except.ok [notFoundMsg]

/-- The concrete package-index response of the listing example given in
the specification. -/
def exampleResp : PypiResponse :=
  PypiResponse.mk true
    (some [("1.0.0",
      [Artifact.mk (some "sdist") (some "2020-01-01T00:00:00"),
       Artifact.mk (some "bdist_wheel") (some "2020-01-01T00:05:00")])])

example :
    list_releases exampleResp =
      Except.ok ["1.0.0     2020-01-01T00:05:00      sdist | bdist_wheel"] := rfl

example :
    list_releases (PypiResponse.mk true (some [])) = Except.ok [noReleasesMsg] := rfl

example :
    list_releases (PypiResponse.mk false (some [("x", [])])) =
      Except.ok [notFoundMsg] := rfl

/-!  Lemmas about the string primitives. -/

theorem pySplit_of_not_mem (sep : Char) (a : List Char) (h : sep ∉ a) :
    pySplit sep a = [a] := by
  induction a with
  | nil => rfl
  | cons c cs ih =>
    simp only [List.mem_cons, not_or] at h
    have hc : ¬ c = sep := fun e => h.1 e.symm
    simp only [pySplit, if_neg hc, ih h.2]

theorem pySplit_append (sep : Char) (a rest : List Char) (h : sep ∉ a) :
    pySplit sep (a ++ sep :: rest) = a :: pySplit sep rest := by
  induction a with
  | nil => simp [pySplit]
  | cons c cs ih =>
    simp only [List.mem_cons, not_or] at h
    have hc : ¬ c = sep := fun e => h.1 e.symm
    simp only [List.cons_append, pySplit, if_neg hc, List.append_eq, ih h.2]

theorem digitChar_isDigit (d : Nat) (h : d < 10) : (Nat.digitChar d).isDigit = true := by
  interval_cases d <;> decide

theorem digitChar_toNat (d : Nat) (h : d < 10) : (Nat.digitChar d).toNat - 48 = d := by
  interval_cases d <;> decide

theorem isDigit_ne_of (c : Char) (h : c.isDigit = true) :
    c ≠ '.' ∧ c ≠ ' ' ∧ c ≠ '-' ∧ c ≠ '+' := by
  refine ⟨?_, ?_, ?_, ?_⟩ <;> rintro rfl <;> exact absurd h (by decide)

theorem parseDigitsAux_append (a b : List Char) (acc : Nat) :
    parseDigitsAux acc (a ++ b) =
      (parseDigitsAux acc a).bind (fun v => parseDigitsAux v b) := by
  induction a generalizing acc with
  | nil => rfl
  | cons c cs ih =>
    simp only [List.cons_append, parseDigitsAux, List.append_eq]
    by_cases hc : c.isDigit = true
    · rw [if_pos hc, if_pos hc, ih]
    · rw [if_neg hc, if_neg hc]; rfl

theorem parseDigitsAux_single (acc : Nat) (c : Char) (h : c.isDigit = true) :
    parseDigitsAux acc [c] = some (10 * acc + (c.toNat - 48)) := by
  simp only [parseDigitsAux, if_pos h]

theorem natToStringAux_digits : ∀ (fuel n : Nat), n < fuel →
    ∀ c ∈ natToStringAux fuel n, c.isDigit = true := by
  intro fuel
  induction fuel with
  | zero => intro n h; omega
  | succ fuel ih =>
    intro n h c hc
    simp only [natToStringAux] at hc
    by_cases h10 : n < 10
    · rw [if_pos h10] at hc
      simp only [List.mem_singleton] at hc
      subst hc
      exact digitChar_isDigit n h10
    · rw [if_neg h10] at hc
      rcases List.mem_append.mp hc with hm | hm
      · exact ih (n / 10) (by omega) c hm
      · simp only [List.mem_singleton] at hm
        subst hm
        exact digitChar_isDigit _ (Nat.mod_lt n (by omega))

theorem natToStringAux_ne_nil (fuel n : Nat) (h : n < fuel) :
    natToStringAux fuel n ≠ [] := by
  cases fuel with
  | zero => omega
  | succ fuel =>
    simp only [natToStringAux]
    by_cases h10 : n < 10
    · rw [if_pos h10]; simp
    · rw [if_neg h10]; simp

theorem natToStringAux_parse : ∀ (fuel n : Nat), n < fuel → ∀ acc : Nat,
    parseDigitsAux acc (natToStringAux fuel n) =
      some (acc * 10 ^ (natToStringAux fuel n).length + n) := by
  intro fuel
  induction fuel with
  | zero => intro n h; omega
  | succ fuel ih =>
    intro n h acc
    by_cases h10 : n < 10
    · simp only [natToStringAux, if_pos h10]
      rw [parseDigitsAux_single acc _ (digitChar_isDigit n h10), digitChar_toNat n h10]
      simp only [List.length_singleton, pow_one]
      congr 1
      ring
    · have hrec : n / 10 < fuel := by omega
      have hmod : n % 10 < 10 := Nat.mod_lt n (by omega)
      simp only [natToStringAux, if_neg h10]
      rw [parseDigitsAux_append, ih (n / 10) hrec acc]
      simp only [Option.bind]
      rw [parseDigitsAux_single _ _ (digitChar_isDigit _ hmod), digitChar_toNat _ hmod]
      simp only [List.length_append, List.length_singleton]
      congr 1
      calc 10 * (acc * 10 ^ (natToStringAux fuel (n / 10)).length + n / 10) + n % 10
          = acc * (10 ^ (natToStringAux fuel (n / 10)).length * 10)
              + (10 * (n / 10) + n % 10) := by ring
        _ = acc * 10 ^ ((natToStringAux fuel (n / 10)).length + 1) + n := by
              rw [Nat.div_add_mod, pow_succ]

theorem natToString_digits (n : Nat) : ∀ c ∈ natToString n, c.isDigit = true :=
  natToStringAux_digits (n + 1) n (Nat.lt_succ_self n)

theorem natToString_ne_nil (n : Nat) : natToString n ≠ [] :=
  natToStringAux_ne_nil (n + 1) n (Nat.lt_succ_self n)

theorem parseDigits_natToString (n : Nat) : parseDigits (natToString n) = some n := by
  have h := natToStringAux_parse (n + 1) n (Nat.lt_succ_self n) 0
  simp only [Nat.zero_mul, Nat.zero_add] at h
  unfold parseDigits
  rw [if_neg (by simpa [List.isEmpty_iff] using natToString_ne_nil n)]
  exact h

theorem dropWhile_all_false {p : Char → Bool} (l : List Char)
    (h : ∀ c ∈ l, p c = false) : l.dropWhile p = l := by
  cases l with
  | nil => rfl
  | cons c cs =>
    rw [List.dropWhile_cons, h c (List.mem_cons_self c cs)]
    simp

theorem stripSpaces_of_digits (s : List Char) (h : ∀ c ∈ s, c.isDigit = true) :
    stripSpaces s = s := by
  have hns : ∀ c ∈ s, c ≠ ' ' := fun c hc => (isDigit_ne_of c (h c hc)).2.1
  unfold stripSpaces
  rw [dropWhile_all_false s (fun c hc => decide_eq_false (hns c hc))]
  rw [dropWhile_all_false s.reverse
    (fun c hc => decide_eq_false (hns c (List.mem_reverse.mp hc)))]
  exact List.reverse_reverse s

theorem pyInt_natToString (n : Nat) : pyInt? (natToString n) = some (Int.ofNat n) := by
  unfold pyInt?
  rw [stripSpaces_of_digits _ (natToString_digits n)]
  obtain ⟨c, cs, hcs⟩ := List.exists_cons_of_ne_nil (natToString_ne_nil n)
  have hc : c.isDigit = true := natToString_digits n c (by rw [hcs]; exact List.mem_cons_self c cs)
  have hne := isDigit_ne_of c hc
  rw [hcs]
  simp only [pyIntCore, if_neg hne.2.2.1, if_neg hne.2.2.2]
  rw [← hcs, parseDigits_natToString]
  rfl

theorem parseParts_none (l : List (List Char)) (h : ∃ p ∈ l, pyInt? p = none) :
    parseParts l = none := by
  induction l with
  | nil => simp at h
  | cons p ps ih =>
    rcases h with ⟨q, hq, hqn⟩
    rcases List.mem_cons.mp hq with rfl | hq2
    · simp only [parseParts, hqn]
      rfl
    · have hps := ih ⟨q, hq2, hqn⟩
      simp only [parseParts, hps]
      cases pyInt? p <;> rfl

theorem intToString_ofNat (n : Nat) : intToString (Int.ofNat n) = natToString n := by
  have h1 : Int.ofNat n = (n : Int) := rfl
  unfold intToString
  rw [h1, if_neg (by omega), Int.toNat_ofNat]

theorem dot_not_mem_natToString (n : Nat) : '.' ∉ natToString n :=
  fun hm => absurd (natToString_digits n '.' hm) (by decide)

/-!  Claim theorems. -/

/-- C1: for every well-formed stored version string `X.Y.Z` (dot-separated
non-negative integer components), the version resolver run with the `auto`
sentinel writes back `X.Y.(Z+1)`: only the last component is incremented by
one and the preceding components are unchanged. -/
theorem auto_increment_bumps_only_last (x y z : Nat) :
    buildVersionFile autoSentinel (verStr x y z) = Except.ok (verStr x y (z + 1)) := by
  have hsplit : pySplit '.' (verStr x y z) =
      [natToString x, natToString y, natToString z] := by
    unfold verStr
    rw [pySplit_append '.' (natToString x) _ (dot_not_mem_natToString x),
      pySplit_append '.' (natToString y) _ (dot_not_mem_natToString y),
      pySplit_of_not_mem '.' (natToString z) (dot_not_mem_natToString z)]
  have hparse : parseParts [natToString x, natToString y, natToString z] =
      some [Int.ofNat x, Int.ofNat y, Int.ofNat z] := by
    simp only [parseParts, pyInt_natToString, Option.some_bind, Option.map_some]
    rfl
  have hsucc : Int.ofNat z + 1 = Int.ofNat (z + 1) := rfl
  unfold buildVersionFile
  rw [if_pos rfl, hsplit, hparse]
  show Except.ok (pyJoin '.'
      (([Int.ofNat x, Int.ofNat y] ++ [Int.ofNat z + 1]).map intToString)) = _
  rw [hsucc]
  simp only [List.cons_append, List.nil_append, List.map_cons, List.map_nil,
    intToString_ofNat]
  rfl

/-- C7: when the stored version string has a non-integer dot-separated
component, the `auto` version resolver raises (the error propagates) and the
version file keeps its previous contents, because the parse happens before
the file is reopened for writing. -/
theorem auto_malformed_version_raises (stored : List Char)
    (h : ∃ p ∈ pySplit '.' stored, pyInt? p = none) :
    buildVersionFile autoSentinel stored = Except.error ()
      ∧ versionFileAfter autoSentinel stored = stored := by
  have herr : buildVersionFile autoSentinel stored = Except.error () := by
    unfold buildVersionFile
    rw [if_pos rfl, parseParts_none _ h]
  exact ⟨herr, by unfold versionFileAfter; rw [herr]⟩

/-- C7 witness: the stored version `1.a.3` has the non-integer component `a`,
so the resolver errors and the file content stays `1.a.3`. -/
theorem auto_malformed_version_raises_witness :
    buildVersionFile autoSentinel ['1', '.', 'a', '.', '3'] = Except.error ()
      ∧ versionFileAfter autoSentinel ['1', '.', 'a', '.', '3'] = ['1', '.', 'a', '.', '3'] :=
  auto_malformed_version_raises ['1', '.', 'a', '.', '3'] (by decide)

/-- C9: an explicit (non-sentinel, non-empty) version string is written to
the version file untransformed, and a completed build leaves exactly that
string in the version file. -/
theorem build_explicit_version_written (force : Bool) (version : List Char)
    (confirm : Bool) (fs : FS) (stored : List Char)
    (h1 : version ≠ autoSentinel) (h2 : version ≠ []) :
    buildVersionFile version stored = Except.ok version
    ∧ ((build force version confirm fs).2.2 = Outcome.ok →
        (build force version confirm fs).1.versionFile = version) := by
  have hbv : ∀ st : List Char, buildVersionFile version st = Except.ok version := by
    intro st
    unfold buildVersionFile
    rw [if_neg h1]
  have hve : version.isEmpty = false := by simpa [List.isEmpty_iff] using h2
  refine ⟨hbv stored, ?_⟩
  intro hok
  rcases hp : prepareDist force confirm fs with ⟨fs1, evs, exitc⟩
  cases exitc with
  | some code => simp [build, hp] at hok
  | none => simp [build, hp, hve, hbv]

/-- C9 witness: a build with explicit version `2.0` on an absent `dist`
directory completes and leaves exactly `2.0` in the version file. -/
theorem build_explicit_version_written_witness :
    buildVersionFile ['2', '.', '0'] ['1'] = Except.ok ['2', '.', '0']
    ∧ ((build false ['2', '.', '0'] false (FS.mk none none ['1'])).2.2 = Outcome.ok →
        (build false ['2', '.', '0'] false (FS.mk none none ['1'])).1.versionFile
          = ['2', '.', '0']) :=
  build_explicit_version_written false ['2', '.', '0'] false (FS.mk none none ['1'])
    ['1'] (by decide) (by decide)

/-- C3: when `dist` is non-empty, force is off and the operator declines the
confirmation, the build deletes nothing (the state is unchanged), invokes no
external tool, and exits with status 1 after echoing `Aborting`. -/
theorem build_decline_aborts (version : List Char) (fs : FS) (files : List String)
    (h1 : fs.dist = some files) (h2 : files ≠ []) :
    build false version false fs =
      (fs, [Event.confirmAsk confirmMsg, Event.echo "Aborting"], Outcome.exited 1) := by
  have hfe : files.isEmpty = false := by simpa [List.isEmpty_iff] using h2
  have hp : prepareDist false false fs =
      (fs, [Event.confirmAsk confirmMsg, Event.echo "Aborting"], some 1) := by
    simp [prepareDist, h1, hfe]
  simp [build, hp]

/-- C3 witness: declining the prompt over a non-empty `dist` leaves the
state untouched and exits with status 1. -/
theorem build_decline_aborts_witness :
    build false ['2'] false (FS.mk (some ["old.whl"]) none ['1']) =
      (FS.mk (some ["old.whl"]) none ['1'],
       [Event.confirmAsk confirmMsg, Event.echo "Aborting"], Outcome.exited 1) :=
  build_decline_aborts ['2'] (FS.mk (some ["old.whl"]) none ['1']) ["old.whl"]
    rfl (by decide)

/-- C2: with force on and a non-empty `dist`, the directory is cleared by
the rename, recursive-delete, recreate sequence; `dist` exists and is empty
(and `dist_delete` is gone) in the state handed to the rest of the build,
and a completed build performs exactly those three directory events before
the two external build-tool invocations. -/
theorem build_force_clears_dist (version : List Char) (confirm : Bool) (fs : FS)
    (files : List String) (h1 : fs.dist = some files) (h2 : files ≠ []) :
    prepareDist true confirm fs =
      (FS.mk (some []) none fs.versionFile,
       [Event.renameDir "dist" "dist_delete", Event.rmtree "dist_delete",
        Event.mkdir "dist"], none)
    ∧ ((build true version confirm fs).2.2 = Outcome.ok →
        (build true version confirm fs).2.1 =
          [Event.renameDir "dist" "dist_delete", Event.rmtree "dist_delete",
           Event.mkdir "dist", Event.checkCall buildToolArgs1,
           Event.checkCall buildToolArgs2]) := by
  have hfe : files.isEmpty = false := by simpa [List.isEmpty_iff] using h2
  have hp : prepareDist true confirm fs =
      (FS.mk (some []) none fs.versionFile,
       [Event.renameDir "dist" "dist_delete", Event.rmtree "dist_delete",
        Event.mkdir "dist"], none) := by
    simp [prepareDist, h1, hfe]
  refine ⟨hp, ?_⟩
  intro hok
  by_cases hv : version.isEmpty
  · simp [build, hp, hv]
  · rcases hbv : buildVersionFile version fs.versionFile with e | v
    · simp [build, hp, hv, hbv] at hok
    · simp [build, hp, hv, hbv]

/-- C2 witness: a forced build over a non-empty `dist` clears it with the
rename, delete, recreate sequence before the tool invocations. -/
theorem build_force_clears_dist_witness :
    prepareDist true false (FS.mk (some ["old.whl"]) none ['1']) =
      (FS.mk (some []) none ['1'],
       [Event.renameDir "dist" "dist_delete", Event.rmtree "dist_delete",
        Event.mkdir "dist"], none)
    ∧ ((build true ['2'] false (FS.mk (some ["old.whl"]) none ['1'])).2.2 = Outcome.ok →
        (build true ['2'] false (FS.mk (some ["old.whl"]) none ['1'])).2.1 =
          [Event.renameDir "dist" "dist_delete", Event.rmtree "dist_delete",
           Event.mkdir "dist", Event.checkCall buildToolArgs1,
           Event.checkCall buildToolArgs2]) :=
  build_force_clears_dist ['2'] false (FS.mk (some ["old.whl"]) none ['1'])
    ["old.whl"] rfl (by decide)

/-- C10: when `dist` is absent or empty, the build performs no directory
preparation at all: no prompt and no rename, delete or directory creation
happen, the directory state is unchanged, and the event trace holds at most
the two external build-tool invocations. -/
theorem build_skips_dir_prep (force : Bool) (version : List Char) (confirm : Bool)
    (fs : FS) (h : fs.dist = none ∨ fs.dist = some []) :
    prepareDist force confirm fs = (fs, [], none)
    ∧ (build force version confirm fs).1.dist = fs.dist
    ∧ (build force version confirm fs).1.distDelete = fs.distDelete
    ∧ ((build force version confirm fs).2.1 = []
       ∨ (build force version confirm fs).2.1 =
          [Event.checkCall buildToolArgs1, Event.checkCall buildToolArgs2]) := by
  have hp : prepareDist force confirm fs = (fs, [], none) := by
    rcases h with h | h <;> simp [prepareDist, h]
  refine ⟨hp, ?_⟩
  by_cases hv : version.isEmpty
  · simp [build, hp, hv]
  · rcases hbv : buildVersionFile version fs.versionFile with e | v
    · simp [build, hp, hv, hbv]
    · simp [build, hp, hv, hbv]

/-- C10 witness: a forced build over an absent `dist` prepares nothing and
only records the two tool invocations. -/
theorem build_skips_dir_prep_witness :
    prepareDist true false (FS.mk none none ['1']) = (FS.mk none none ['1'], [], none)
    ∧ (build true ['2'] false (FS.mk none none ['1'])).1.dist = (FS.mk none none ['1']).dist
    ∧ (build true ['2'] false (FS.mk none none ['1'])).1.distDelete
        = (FS.mk none none ['1']).distDelete
    ∧ ((build true ['2'] false (FS.mk none none ['1'])).2.1 = []
       ∨ (build true ['2'] false (FS.mk none none ['1'])).2.1 =
          [Event.checkCall buildToolArgs1, Event.checkCall buildToolArgs2]) :=
  build_skips_dir_prep true ['2'] false (FS.mk none none ['1']) (Or.inl rfl)

/-- C4: upload with rebuild disabled over an absent or empty `dist` prints
the guidance message and returns cleanly: the state is unchanged, the trace
is exactly the printed message (so neither the build nor the upload tool
runs), and the outcome is a normal return. -/
theorem upload_no_artifacts_soft_return (release : Bool) (version : List Char)
    (confirm : Bool) (twineExit : Int) (fs : FS)
    (h : fs.dist = none ∨ fs.dist = some []) :
    upload release false version confirm twineExit fs =
      (fs, [Event.printMsg noDistMsg], Outcome.ok) := by
  rcases h with h | h <;> simp [upload, h]

/-- C4 witness: upload with rebuild off and no `dist` directory prints the
guidance message and returns normally. -/
theorem upload_no_artifacts_soft_return_witness :
    upload true false autoSentinel false 0 (FS.mk none none ['1']) =
      (FS.mk none none ['1'], [Event.printMsg noDistMsg], Outcome.ok) :=
  upload_no_artifacts_soft_return true autoSentinel false 0 (FS.mk none none ['1'])
    (Or.inl rfl)

/-- C5: every upload that reaches the upload step waits for the upload
subprocess (the wait is the final recorded event) and completes normally
whatever exit status the subprocess terminates with; the whole run is
independent of that status. -/
theorem upload_never_inspects_exit (release rebuild : Bool) (version : List Char)
    (confirm : Bool) (twineExit : Int) (fs : FS)
    (h : (rebuild = false ∧ ∃ files, fs.dist = some files ∧ files ≠ [])
       ∨ (rebuild = true ∧ (build true version confirm fs).2.2 = Outcome.ok)) :
    (upload release rebuild version confirm twineExit fs).2.2 = Outcome.ok
    ∧ (upload release rebuild version confirm twineExit fs).2.1.getLast?
        = some (Event.popenWait (twineArgs release))
    ∧ upload release rebuild version confirm twineExit fs
        = upload release rebuild version confirm 0 fs := by
  refine ⟨?_, ?_, rfl⟩ <;>
  · rcases h with ⟨hrb, files, hf, hfe⟩ | ⟨hrb, hok⟩
    · subst hrb
      have hfee : files.isEmpty = false := by simpa [List.isEmpty_iff] using hfe
      simp [upload, hf, hfee]
    · subst hrb
      rcases hb : build true version confirm fs with ⟨fs1, evs, out⟩
      rw [hb] at hok
      simp only at hok
      subst hok
      simp [upload, hb, List.getLast?_concat]

/-- C5 witness: an upload with rebuild off over a non-empty `dist` whose
upload subprocess exits with status 1 still completes normally, ending in
the wait on the upload tool. -/
theorem upload_never_inspects_exit_witness :
    (upload true false autoSentinel false 1 (FS.mk (some ["old.whl"]) none ['1'])).2.2
        = Outcome.ok
    ∧ (upload true false autoSentinel false 1
        (FS.mk (some ["old.whl"]) none ['1'])).2.1.getLast?
        = some (Event.popenWait (twineArgs true))
    ∧ upload true false autoSentinel false 1 (FS.mk (some ["old.whl"]) none ['1'])
        = upload true false autoSentinel false 0 (FS.mk (some ["old.whl"]) none ['1']) :=
  upload_never_inspects_exit true false autoSentinel false 1
    (FS.mk (some ["old.whl"]) none ['1'])
    (Or.inl ⟨rfl, ["old.whl"], rfl, by decide⟩)

/-!  Lemmas for the listing claims. -/

theorem foldl_scanStep (l : List Artifact) (acc : List (Option String))
    (p : Option String) :
    l.foldl scanStep (acc, p) =
      (acc ++ l.map Artifact.packagetype,
       (l.getLast?.map Artifact.upload_time).getD p) := by
  induction l using List.reverseRecOn generalizing acc p with
  | nil => simp
  | append_singleton l a ih =>
    rw [List.foldl_append, ih]
    simp [scanStep, List.getLast?_concat]

theorem scanRelease_spec (release : List Artifact) :
    scanRelease release =
      (release.map Artifact.packagetype,
       release.getLast?.bind Artifact.upload_time) := by
  unfold scanRelease
  rw [foldl_scanStep]
  cases h : release.getLast? <;> simp [h]

/-- C6: on the example response of the specification the line printed for
version `1.0.0` carries the upload time of the last artifact scanned and
the pipe-joined labels `sdist | bdist_wheel` in order of appearance; in
general the scan of any artifact list yields the upload time of the last
artifact and the package-type labels in list order. -/
theorem listing_last_scan_time_and_label_order :
    list_releases exampleResp =
      Except.ok ["1.0.0     2020-01-01T00:05:00      sdist | bdist_wheel"]
    ∧ ∀ release : List Artifact,
        (scanRelease release).2 = release.getLast?.bind Artifact.upload_time
        ∧ (scanRelease release).1 = release.map Artifact.packagetype := by
  refine ⟨rfl, fun release => ?_⟩
  rw [scanRelease_spec]
  exact ⟨rfl, rfl⟩

/-- C8: an unsuccessful HTTP response makes the listing print the
package-not-found message and return normally, whatever the body holds (the
body is never parsed). -/
theorem listing_http_error_not_found (rel : Option (List (String × List Artifact))) :
    list_releases (PypiResponse.mk false rel) = Except.ok [notFoundMsg] := rfl

end Release
